import Mathlib

/-!
Shallow embedding of `src/tools/lua/lfunc.cpp` (prototype/closure lifecycle
and the local-variable name resolver) from the residualvm-tools repository,
with theorems checking the natural-language specification against it.

Machine integers (`int32`, the `nblocks` counter) are modelled as `Int`;
none of the verified claims involves overflow behaviour.  Pointers that may
be `NULL` are modelled as `Option`; the intrusive `GCnode` chains are
modelled as Lean lists (the node-to-end sublist reachable via `head.next`).
-/

namespace LFunc

/-- A constant value slot (`TObject` in the source).  Its internal
representation is opaque to `lfunc.cpp`; only its presence matters here. -/
structure TObject where
  dummy : Unit := ()
deriving Repr, DecidableEq

/-- One local-variable debug record (`LocVar`).  `varname` is a pointer to an
interned `TaggedString` in the source, or `NULL` for an unregister record; we
model the reachable string `varname->str` directly as `Option String`.
`line` is the `int32` source line of the scope event (`-1` is the sentinel). -/
structure LocVar where
  varname : Option String
  line : Int
deriving Repr, DecidableEq

/-- A compiled function prototype (`TProtoFunc`).  Owned buffers that can be
`NULL` are `Option`s: `code` is an opaque instruction buffer, `consts` the
constant array, `locvars` the debug-record sequence.  The intrusive
`head : GCnode` link is represented by the object's position in the
registry chain list, not by a field. -/
structure TProtoFunc where
  code : Option (List Int)
  lineDefined : Int
  fileName : Option String
  consts : Option (List TObject)
  nconsts : Int
  locvars : Option (List LocVar)
deriving Repr, DecidableEq

/-- A closure (`Closure`): header plus a trailing array of `nelems` value
slots allocated in one block.  Only `nelems` is ever read by this core. -/
structure Closure where
  nelems : Int
deriving Repr, DecidableEq

/-- `#define gcsizeproto(p) 5` — approximate weight for a prototype. -/
def gcsizeproto : Int := 5

/-- `#define gcsizeclosure(c) 1` — approximate weight for a closure. -/
def gcsizeclosure : Int := 1

/-- The global interpreter state `L` as far as `lfunc.cpp` touches it:
the two registry root chains and the process-wide weight counter
`L->nblocks`.  A chain is the list of objects reachable from the root by
`head.next` links. -/
structure LuaState where
  rootproto : List TProtoFunc
  rootcl : List Closure
  nblocks : Int
deriving Repr, DecidableEq

/-- Modelled from the spec: `luaO_insertlist` (declared in `lobject.h`, body
not in the excerpt) "links the new object at the list head", so the
registry's traversal order is reverse-creation order.  We model it as list
cons onto the root chain. -/
def luaO_insertlist {α : Type} (root : List α) (node : α) : List α :=
  node :: root

/-- `luaF_newclosure`: allocates a closure sized for `nelems` trailing
slots, links it at the head of `L->rootcl`, adds the fixed closure weight
to `L->nblocks`, records `nelems`, and returns the closure. -/
def luaF_newclosure (s : LuaState) (nelems : Int) : Closure × LuaState :=
  let c : Closure := { nelems := nelems }
  (c, { s with rootcl := luaO_insertlist s.rootcl c,
               nblocks := s.nblocks + gcsizeclosure })

/-- `luaF_newproto`: allocates a prototype, nulls/zeroes every descriptive
field, links it at the head of `L->rootproto`, and adds the fixed prototype
weight to `L->nblocks`. -/
def luaF_newproto (s : LuaState) : TProtoFunc × LuaState :=
  let f : TProtoFunc :=
    { code := none, lineDefined := 0, fileName := none,
      consts := none, nconsts := 0, locvars := none }
  (f, { s with rootproto := luaO_insertlist s.rootproto f,
               nblocks := s.nblocks + gcsizeproto })

/-- `luaF_freeproto`: walks the chain from the given node to the end,
subtracting the prototype weight from `L->nblocks` for each visited node
and releasing it (`freefunc`).  Memory release itself has no observable
effect in the model; the weight updates do.  The argument list is the
node-to-end sublist handed in by the caller. -/
def luaF_freeproto : LuaState → List TProtoFunc → LuaState
  | s, [] => s
  | s, _ :: next => luaF_freeproto { s with nblocks := s.nblocks - gcsizeproto } next

/-- `luaF_freeclosure`: walks the chain from the given node to the end,
subtracting the closure weight from `L->nblocks` for each visited node and
releasing it. -/
def luaF_freeclosure : LuaState → List Closure → LuaState
  | s, [] => s
  | s, _ :: next => luaF_freeclosure { s with nblocks := s.nblocks - gcsizeclosure } next

/-- The scan loop of `luaF_getlocalname`:
`for (; lv->line != -1 && lv->line < line; lv++) { ... }` with running
`count` and candidate `varname`.  The empty-list case can only be reached
on a malformed (sentinel-free) sequence, where the source loop would read
past the array; well-formed sequences always stop at the sentinel. -/
def scanLocVars (local_number line : Int) :
    List LocVar → Int → Option String → Option String
  | [], _, varname => varname
  | lv :: rest, count, varname =>
    if lv.line = -1 ∨ ¬ lv.line < line then varname
    else
      match lv.varname with
      | some str =>
        scanLocVars local_number line rest (count + 1)
          (if count + 1 = local_number then some str else varname)
      | none =>
        scanLocVars local_number line rest (count - 1)
          (if count - 1 < local_number then none else varname)

/-- `luaF_getlocalname`: looks for the `local_number`-th local variable at
line `line` in `func`; returns `NULL` (`none`) if `func->locvars` is `NULL`
or no candidate is held when the scan stops. -/
def luaF_getlocalname (func : TProtoFunc) (local_number line : Int) :
    Option String :=
  match func.locvars with
  | none => none
  | some lvs => scanLocVars local_number line lvs 0 none

/-- One creation call in a client sequence: either `luaF_newproto` or
`luaF_newclosure nelems`. -/
inductive CreateOp
  | proto : CreateOp
  | closure (nelems : Int) : CreateOp
deriving Repr, DecidableEq

/-- Run a sequence of creation calls, threading the state. -/
def runCreates : LuaState → List CreateOp → LuaState
  | s, [] => s
  | s, .proto :: rest => runCreates (luaF_newproto s).2 rest
  | s, .closure n :: rest => runCreates (luaF_newclosure s n).2 rest

/-- Number of `proto` operations in a creation sequence. -/
def countProtos : List CreateOp → Nat
  | [] => 0
  | .proto :: rest => countProtos rest + 1
  | .closure _ :: rest => countProtos rest

/-- Number of `closure` operations in a creation sequence. -/
def countClosures : List CreateOp → Nat
  | [] => 0
  | .proto :: rest => countClosures rest
  | .closure _ :: rest => countClosures rest + 1

/-! ### Helper lemmas (shared) -/

theorem luaF_freeproto_rootproto (s : LuaState) (l : List TProtoFunc) :
    (luaF_freeproto s l).rootproto = s.rootproto := by
  induction l generalizing s with
  | nil => rfl
  | cons f rest ih => exact ih _

theorem luaF_freeproto_rootcl (s : LuaState) (l : List TProtoFunc) :
    (luaF_freeproto s l).rootcl = s.rootcl := by
  induction l generalizing s with
  | nil => rfl
  | cons f rest ih => exact ih _

theorem luaF_freeproto_nblocks (s : LuaState) (l : List TProtoFunc) :
    (luaF_freeproto s l).nblocks = s.nblocks - gcsizeproto * l.length := by
  induction l generalizing s with
  | nil => simp [luaF_freeproto]
  | cons f rest ih =>
    rw [luaF_freeproto, ih]
    simp [List.length_cons]
    ring

theorem luaF_freeclosure_rootproto (s : LuaState) (l : List Closure) :
    (luaF_freeclosure s l).rootproto = s.rootproto := by
  induction l generalizing s with
  | nil => rfl
  | cons c rest ih => exact ih _

theorem luaF_freeclosure_rootcl (s : LuaState) (l : List Closure) :
    (luaF_freeclosure s l).rootcl = s.rootcl := by
  induction l generalizing s with
  | nil => rfl
  | cons c rest ih => exact ih _

theorem luaF_freeclosure_nblocks (s : LuaState) (l : List Closure) :
    (luaF_freeclosure s l).nblocks = s.nblocks - gcsizeclosure * l.length := by
  induction l generalizing s with
  | nil => simp [luaF_freeclosure]
  | cons c rest ih =>
    rw [luaF_freeclosure, ih]
    simp [List.length_cons]
    ring

theorem runCreates_nblocks (s : LuaState) (ops : List CreateOp) :
    (runCreates s ops).nblocks =
      s.nblocks + gcsizeproto * countProtos ops + gcsizeclosure * countClosures ops := by
  induction ops generalizing s with
  | nil => simp [runCreates, countProtos, countClosures]
  | cons op rest ih =>
    cases op with
    | proto =>
      rw [runCreates, ih]
      simp [luaF_newproto, countProtos, countClosures]
      ring
    | closure n =>
      rw [runCreates, ih]
      simp [luaF_newclosure, countProtos, countClosures]
      ring

theorem runCreates_rootproto_length (s : LuaState) (ops : List CreateOp) :
    (runCreates s ops).rootproto.length = countProtos ops + s.rootproto.length := by
  induction ops generalizing s with
  | nil => simp [runCreates, countProtos]
  | cons op rest ih =>
    cases op with
    | proto =>
      rw [runCreates, ih]
      simp [luaF_newproto, luaO_insertlist, countProtos]
      ring
    | closure n =>
      rw [runCreates, ih]
      simp [luaF_newclosure, countProtos]

theorem runCreates_rootcl_length (s : LuaState) (ops : List CreateOp) :
    (runCreates s ops).rootcl.length = countClosures ops + s.rootcl.length := by
  induction ops generalizing s with
  | nil => simp [runCreates, countClosures]
  | cons op rest ih =>
    cases op with
    | proto =>
      rw [runCreates, ih]
      simp [luaF_newproto, countClosures]
    | closure n =>
      rw [runCreates, ih]
      simp [luaF_newclosure, luaO_insertlist, countClosures]
      ring

/-! ### Claim theorems -/

/-- C6: `luaF_freeproto` and `luaF_freeclosure` on a null (empty) chain are
no-ops: nothing is freed and the whole interpreter state — root chains and
`nblocks` weight counter — is returned unchanged. -/
theorem free_null_chain_noop (s : LuaState) :
    luaF_freeproto s [] = s ∧ luaF_freeclosure s [] = s :=
  ⟨rfl, rfl⟩

/-- C7: every prototype returned by `luaF_newproto` has all descriptive
fields zero-initialized: `code`, `fileName`, `consts`, `locvars` are null
and `lineDefined`, `nconsts` are zero at the moment the function returns. -/
theorem newproto_zero_initialized (s : LuaState) :
    (luaF_newproto s).1.code = none ∧
    (luaF_newproto s).1.fileName = none ∧
    (luaF_newproto s).1.consts = none ∧
    (luaF_newproto s).1.locvars = none ∧
    (luaF_newproto s).1.lineDefined = 0 ∧
    (luaF_newproto s).1.nconsts = 0 :=
  ⟨rfl, rfl, rfl, rfl, rfl, rfl⟩

/-- C8: the weight `luaF_newclosure` adds to `L->nblocks` is a fixed
constant independent of the element count — any two non-negative counts
`m`, `n` cause the same increment — while each returned closure reports
exactly its requested element count in `nelems`. -/
theorem newclosure_weight_independent_of_nelems (s : LuaState) (m n : Int)
    (hm : 0 ≤ m) (hn : 0 ≤ n) :
    (luaF_newclosure s m).2.nblocks - s.nblocks =
      (luaF_newclosure s n).2.nblocks - s.nblocks ∧
    (luaF_newclosure s m).1.nelems = m ∧
    (luaF_newclosure s n).1.nelems = n :=
  ⟨rfl, rfl, rfl⟩

/-- Witness for C8 at the concrete counts 0 and 1000 from an empty state. -/
theorem newclosure_weight_independent_of_nelems_witness :
    (luaF_newclosure ⟨[], [], 0⟩ 0).2.nblocks - (0 : Int) =
      (luaF_newclosure ⟨[], [], 0⟩ 1000).2.nblocks - 0 ∧
    (luaF_newclosure ⟨[], [], 0⟩ 0).1.nelems = 0 ∧
    (luaF_newclosure ⟨[], [], 0⟩ 1000).1.nelems = 1000 :=
  newclosure_weight_independent_of_nelems ⟨[], [], 0⟩ 0 1000
    (by decide) (by decide)

/-- C9: the bulk frees never read or write the registry roots — after
`luaF_freeproto` and `luaF_freeclosure`, `rootproto` and `rootcl` are
exactly what they were before, whatever chain was freed — and the only
global state either changes is the weight counter `nblocks` (by exactly
the summed weight of the visited nodes). -/
theorem free_chain_frame_effect (s : LuaState) (lp : List TProtoFunc)
    (lc : List Closure) :
    (luaF_freeproto s lp).rootproto = s.rootproto ∧
    (luaF_freeproto s lp).rootcl = s.rootcl ∧
    (luaF_freeclosure s lc).rootproto = s.rootproto ∧
    (luaF_freeclosure s lc).rootcl = s.rootcl ∧
    (luaF_freeproto s lp).nblocks = s.nblocks - gcsizeproto * lp.length ∧
    (luaF_freeclosure s lc).nblocks = s.nblocks - gcsizeclosure * lc.length :=
  ⟨luaF_freeproto_rootproto s lp, luaF_freeproto_rootcl s lp,
   luaF_freeclosure_rootproto s lc, luaF_freeclosure_rootcl s lc,
   luaF_freeproto_nblocks s lp, luaF_freeclosure_nblocks s lc⟩

/-- C5: resolving a local name on a prototype whose `locvars` debug-record
sequence is null returns "not found" (`none`) for every ordinal and line;
the resolver is a pure function, so no state is touched. -/
theorem getlocalname_no_debug_records (func : TProtoFunc) (n line : Int)
    (h : func.locvars = none) :
    luaF_getlocalname func n line = none := by
  simp [luaF_getlocalname, h]

/-- Witness for C5 on a freshly zero-initialized prototype. -/
theorem getlocalname_no_debug_records_witness :
    luaF_getlocalname ⟨none, 0, none, none, 0, none⟩ 7 42 = none :=
  getlocalname_no_debug_records ⟨none, 0, none, none, 0, none⟩ 7 42 rfl

/-- C3: on the record sequence
`[(1,"a"), (2,unregister), (3,"b"), (-1,sentinel)]`, ordinal 1 resolves to
"a" at query line 2 and to "b" at query line 4: the unregister at line 2
drops the live-count below the ordinal and clears the earlier candidate,
and the later register at line 3 sets a new one. -/
theorem resolver_shadowing_reuse :
    luaF_getlocalname
      ⟨none, 0, none, none, 0,
        some [⟨some "a", 1⟩, ⟨none, 2⟩, ⟨some "b", 3⟩, ⟨none, -1⟩]⟩ 1 2
      = some "a" ∧
    luaF_getlocalname
      ⟨none, 0, none, none, 0,
        some [⟨some "a", 1⟩, ⟨none, 2⟩, ⟨some "b", 3⟩, ⟨none, -1⟩]⟩ 1 4
      = some "b" :=
  ⟨rfl, rfl⟩

/-- C4: on the record sequence `[(1,"x"), (5,"y"), (-1,sentinel)]`, the
resolver returns "x" for ordinal 1 at line 3, "not found" for ordinal 2 at
line 3 (the second register happens at line 5, at or after the query
line), and "y" for ordinal 2 at line 10. -/
theorem resolver_simple_case :
    luaF_getlocalname
      ⟨none, 0, none, none, 0,
        some [⟨some "x", 1⟩, ⟨some "y", 5⟩, ⟨none, -1⟩]⟩ 1 3 = some "x" ∧
    luaF_getlocalname
      ⟨none, 0, none, none, 0,
        some [⟨some "x", 1⟩, ⟨some "y", 5⟩, ⟨none, -1⟩]⟩ 2 3 = none ∧
    luaF_getlocalname
      ⟨none, 0, none, none, 0,
        some [⟨some "x", 1⟩, ⟨some "y", 5⟩, ⟨none, -1⟩]⟩ 2 10 = some "y" :=
  ⟨rfl, rfl, rfl⟩

/-- C1: for any sequence of `luaF_newproto`/`luaF_newclosure` calls,
freeing the entire resulting chains (the newly created head segments of
both registries) returns `L->nblocks` exactly to its pre-sequence value:
every creation adds exactly the per-kind weight the matching free later
subtracts. -/
theorem weight_counter_roundtrip (s : LuaState) (ops : List CreateOp) :
    (luaF_freeclosure
      (luaF_freeproto (runCreates s ops)
        ((runCreates s ops).rootproto.take (countProtos ops)))
      ((runCreates s ops).rootcl.take (countClosures ops))).nblocks
      = s.nblocks := by
  rw [luaF_freeclosure_nblocks, luaF_freeproto_nblocks, runCreates_nblocks,
      List.length_take, List.length_take,
      runCreates_rootproto_length, runCreates_rootcl_length]
  rw [Nat.min_eq_left (Nat.le_add_right _ _), Nat.min_eq_left (Nat.le_add_right _ _)]
  ring

/-- The scan-continuation predicate of `luaF_getlocalname`'s `for` loop:
a record is consulted only while its line is not the sentinel and is
strictly less than the queried line. -/
def consulted (line : Int) (lv : LocVar) : Bool :=
  decide (lv.line ≠ -1 ∧ lv.line < line)

/-- C2: the resolver scans records in order and stops as soon as a
record's line is the sentinel `-1` or is not less than the queried line,
returning the candidate held at that moment; in particular a record whose
line equals the queried line is never consulted, and the result depends
only on the prefix of records strictly before the stopping point. -/
theorem resolver_strict_boundary (local_number line : Int) :
    (∀ (lv : LocVar) (rest : List LocVar) (count : Int) (cand : Option String),
      lv.line = -1 ∨ ¬ lv.line < line →
      scanLocVars local_number line (lv :: rest) count cand = cand) ∧
    (∀ (lv : LocVar) (rest : List LocVar) (count : Int) (cand : Option String),
      lv.line = line →
      scanLocVars local_number line (lv :: rest) count cand = cand) ∧
    (∀ (lvs : List LocVar) (count : Int) (cand : Option String),
      scanLocVars local_number line lvs count cand =
        scanLocVars local_number line (lvs.takeWhile (consulted line))
          count cand) := by
  refine ⟨?_, ?_, ?_⟩
  · intro lv rest count cand h
    simp only [scanLocVars]
    rw [if_pos h]
  · intro lv rest count cand h
    simp only [scanLocVars]
    rw [if_pos (Or.inr (by rw [h]; exact lt_irrefl line))]
  · intro lvs
    induction lvs with
    | nil => intro count cand; rfl
    | cons lv rest ih =>
      intro count cand
      by_cases hc : lv.line = -1 ∨ ¬ lv.line < line
      · have hp : consulted line lv = false := by
          simp only [consulted, decide_eq_false_iff_not, not_and_or, not_not]
          cases hc with
          | inl h => exact Or.inl h
          | inr h => exact Or.inr h
        rw [List.takeWhile_cons, hp]
        simp only [scanLocVars]
        rw [if_pos hc]
      · push_neg at hc
        have hp : consulted line lv = true := by
          simp [consulted, hc.1, hc.2]
        have hcond : ¬ (lv.line = -1 ∨ ¬ lv.line < line) := by
          push_neg
          exact hc
        rw [List.takeWhile_cons, hp]
        simp only [scanLocVars]
        rw [if_neg hcond, if_neg hcond]
        cases hv : lv.varname with
        | some str => simp only; exact ih _ _
        | none => simp only; exact ih _ _

/-- Witness for C2: a lone register record exactly at the queried line is
never consulted, so the held candidate (`none`) is returned. -/
theorem resolver_strict_boundary_witness :
    scanLocVars 1 2 [⟨some "x", 2⟩] 0 none = none :=
  (resolver_strict_boundary 1 2).2.1 ⟨some "x", 2⟩ [] 0 none rfl

/-- C10: the resolver's scan is total (it is a structurally recursive Lean
function) and, on any finite sequence whose first sentinel record
(`line = -1`) exists, never inspects the sentinel's payload nor any record
after it — even when the sequence is malformed (unregister records may
outnumber registers and drive the internal count negative without any
guard; clearing a null candidate is harmless). -/
theorem scan_total_sentinel_cutoff (n line : Int) (l₁ l₂ : List LocVar)
    (v : Option String) (count : Int) (cand : Option String)
    (h : ∀ r ∈ l₁, r.line ≠ -1) :
    scanLocVars n line (l₁ ++ ⟨v, -1⟩ :: l₂) count cand =
      scanLocVars n line (l₁ ++ [⟨none, -1⟩]) count cand := by
  revert h
  induction l₁ generalizing count cand with
  | nil =>
    intro h
    simp [scanLocVars]
  | cons lv rest ih =>
    intro h
    have hne : lv.line ≠ -1 := h lv (List.mem_cons_self _ _)
    have h' : ∀ r ∈ rest, r.line ≠ -1 := fun r hr => h r (List.mem_cons_of_mem _ hr)
    by_cases hlt : lv.line < line
    · have hcond : ¬ (lv.line = -1 ∨ ¬ lv.line < line) := by
        push_neg
        exact ⟨hne, hlt⟩
      simp only [List.cons_append, scanLocVars]
      rw [if_neg hcond, if_neg hcond]
      cases hv : lv.varname with
      | some str => simp only; exact ih _ _ h'
      | none => simp only; exact ih _ _ h'
    · have hcond : lv.line = -1 ∨ ¬ lv.line < line := Or.inr hlt
      simp only [List.cons_append, scanLocVars]
      rw [if_pos hcond, if_pos hcond]

/-- Witness for C10 on a malformed sequence: two unregister records with no
matching register drive the count negative, and junk after (and in) the
sentinel does not change the result. -/
theorem scan_total_sentinel_cutoff_witness :
    scanLocVars 1 10 ([⟨none, 1⟩, ⟨none, 2⟩] ++ ⟨some "junk", -1⟩ :: [⟨some "z", 3⟩]) 0 none =
      scanLocVars 1 10 ([⟨none, 1⟩, ⟨none, 2⟩] ++ [⟨none, -1⟩]) 0 none :=
  scan_total_sentinel_cutoff 1 10 [⟨none, 1⟩, ⟨none, 2⟩] [⟨some "z", 3⟩]
    (some "junk") 0 none (by decide)

end LFunc
